import Mathlib

/-!
# Verification of the stock_market indicator / scanner engine

A shallow embedding, in Lean 4, of the core algorithms of the repository:

* the Hilega–Milega (HM) scanner predicate (`src/scanners/scanner_HM.py`,
  `src/scanners/scanner_HM_multi.py`),
* the backtest trade evaluator (`src/scanners/backtest_service.py`),
* the technical-indicator calculators (`src/services/indicators_helper.py`),
* the indicator refresh driver (`src/services/indicator_service.py`),
* the daily→weekly/monthly aggregator (`src/services/weekly_monthly_service.py`).

Modelling conventions:

* pandas float values are modelled as `ℚ`; a missing value (`NaN` / SQL `NULL`)
  is `none` in `Option ℚ`.  Any float comparison involving `NaN` is `false`,
  which the `o*`/`fdiv*` helpers encode.
* float division by zero (`a / 0` is `±inf` in pandas) is modelled inside the
  comparison helpers: `a / 0 ≥ c` and `a / 0 > c` hold for a finite positive
  threshold `c` exactly when `0 < a`.
* decimal literals such as `1.15` are modelled by the exact rational they
  denote in the source text.
* `Series.round(2)` is modelled by `round2` (round to nearest centi-unit).
* dates are modelled as natural-number day indices; day `0` is a Monday, so a
  day `d` is a Friday exactly when `d % 7 = 4`.
-/

attribute [local semireducible] Rat.mul Rat.inv Rat.add Rat.sub Rat.ofScientific

/-- Round a rational to two decimal places (pandas `Series.round(2)`). -/
def round2 (x : ℚ) : ℚ := (round (100 * x) : ℤ) / 100

/-- Float `<` with `NaN` (`none`) semantics: any comparison with `NaN` is false. -/
def oLt (x y : Option ℚ) : Bool :=
  match x, y with
  | some a, some b => decide (a < b)
  | _, _ => false

/-- Float `>` with `NaN` semantics. -/
def oGt (x y : Option ℚ) : Bool :=
  match x, y with
  | some a, some b => decide (b < a)
  | _, _ => false

/-- `x ≥ c` for a nullable float `x` against a constant `c`; false on `NaN`. -/
def oGeC (x : Option ℚ) (c : ℚ) : Bool :=
  match x with
  | some a => decide (c ≤ a)
  | none => false

/-- `x > c` for a nullable float `x` against a constant `c`; false on `NaN`. -/
def oGtC (x : Option ℚ) (c : ℚ) : Bool :=
  match x with
  | some a => decide (c < a)
  | none => false

/-- `x < c` for a nullable float `x` against a constant `c`; false on `NaN`. -/
def oLtC (x : Option ℚ) (c : ℚ) : Bool :=
  match x with
  | some a => decide (a < c)
  | none => false

/-- `x / y ≥ c` under pandas float semantics (`c` a positive finite constant):
`NaN` operands give false; `y = 0` gives `+inf` (true) when `x > 0`, and
`-inf` or `NaN` (false) otherwise. -/
def fdivGe (x y : Option ℚ) (c : ℚ) : Bool :=
  match x, y with
  | some a, some b => if b = 0 then decide (0 < a) else decide (c ≤ a / b)
  | _, _ => false

/-- `x / y > c` under pandas float semantics; see `fdivGe`. -/
def fdivGt (x y : Option ℚ) (c : ℚ) : Bool :=
  match x, y with
  | some a, some b => if b = 0 then decide (0 < a) else decide (c < a / b)
  | _, _ => false

/-!
## HM (Hilega–Milega) scanner — `scanner_HM.py` / `scanner_HM_multi.py`

`get_hilega_milega_base_data` joins, for one scan date, the daily indicator
row with the daily close and the as-of-date weekly/monthly `rsi_3`; the two
lateral joins are `LEFT` joins, so the weekly/monthly fields are nullable.
`apply_hilega_milega_logic` then filters that frame by a boolean mask and
sorts by (`date` descending, `yahoo_symbol` ascending).
-/

/-- One joined daily snapshot row, as produced by `get_hilega_milega_base_data`
(or its date-range variant in `scanner_HM_multi.py`). -/
structure HMRow where
  date : ℕ
  yahoo_symbol : String
  close : Option ℚ
  rsi_3 : Option ℚ
  rsi_9 : Option ℚ
  ema_rsi_9_3 : Option ℚ
  wma_rsi_9_21 : Option ℚ
  rsi_3_weekly : Option ℚ
  rsi_3_monthly : Option ℚ
deriving DecidableEq, Repr

/-- The boolean mask of `apply_hilega_milega_logic` (identical in
`scanner_HM.py` lines 116–124 and `scanner_HM_multi.py` lines 92–100). -/
def hm_mask (r : HMRow) : Bool :=
  oGeC r.close 60 &&
  fdivGe r.rsi_3 r.rsi_9 (115/100) &&
  fdivGt r.rsi_9 r.ema_rsi_9_3 (105/100) &&
  fdivGe r.ema_rsi_9_3 r.wma_rsi_9_21 1 &&
  oLtC r.rsi_3 60 &&
  oGtC r.rsi_3_weekly 60 &&
  oGtC r.rsi_3_monthly 50

/-- `sort_values(["date", "yahoo_symbol"], ascending=[False, True])` as a
boolean comparator. -/
def hmSortLe (r s : HMRow) : Bool :=
  decide (s.date < r.date) ||
    (decide (r.date = s.date) && !decide (s.yahoo_symbol < r.yahoo_symbol))

/-- `apply_hilega_milega_logic`: filter by the mask, then sort by
(date descending, symbol ascending). -/
def apply_hilega_milega_logic (df : List HMRow) : List HMRow :=
  (df.filter hm_mask).mergeSort hmSortLe

/-- The end-to-end example row of the spec: close 65, rsi_9 55,
ema_rsi_9_3 52, wma_rsi_9_21 50, weekly rsi_3 65, monthly rsi_3 55,
with a variable daily `rsi_3`. -/
def hmSpecRow (r3 : ℚ) : HMRow :=
  { date := 0, yahoo_symbol := "X",
    close := some 65, rsi_3 := some r3, rsi_9 := some 55,
    ema_rsi_9_3 := some 52, wma_rsi_9_21 := some 50,
    rsi_3_weekly := some 65, rsi_3_monthly := some 55 }

/-!
## Backtest trade evaluator — `backtest_service.py` lines 88–114

For each signal row the evaluator filters the symbol's (date-ordered) daily
price bars to those strictly after the signal date, takes the first as the
entry, re-filters to bars dated on/after the entry, requires at least six such
bars, exits at index 5, and records `(exit.close − entry.open)/entry.open·100`.
-/

/-- A daily price bar as selected by the backtest query
(`SELECT symbol_id, date, open, close …`). -/
structure PxBar where
  date : ℕ
  open_ : ℚ
  close : ℚ
deriving DecidableEq, Repr

/-- A produced trade record (`trades.append({...})`). -/
structure Trade where
  entry_date : ℕ
  entry_open : ℚ
  exit_date : ℕ
  exit_close : ℚ
  return_pct : ℚ
deriving DecidableEq, Repr

/-- The per-signal body of the loop in `backtest_scanners`
(lines 94–114): entry/exit lookup and return computation. -/
def eval_signal (symbol_prices : List PxBar) (signal_date : ℕ) : Option Trade :=
  match symbol_prices.filter (fun b => decide (signal_date < b.date)) with
  | [] => none
  | entry :: _ =>
    let exit_df := symbol_prices.filter (fun b => decide (entry.date ≤ b.date))
    if exit_df.length < 6 then none
    else
      match exit_df[5]? with
      | some exit_row =>
          some { entry_date := entry.date, entry_open := entry.open_,
                 exit_date := exit_row.date, exit_close := exit_row.close,
                 return_pct := (exit_row.close - entry.open_) / entry.open_ * 100 }
      | none => none

/-- Concrete seven-bar price series used to witness the backtest theorem. -/
def wBars : List PxBar :=
  [⟨1, 10, 11⟩, ⟨2, 11, 12⟩, ⟨3, 12, 13⟩, ⟨4, 13, 14⟩,
   ⟨5, 14, 15⟩, ⟨6, 15, 16⟩, ⟨7, 16, 17⟩]

/-!
## RSI — `calculate_rsi_series` (indicators_helper.py lines 42–63)

`delta = close.diff()` (NaN at position 0), gains/losses by clipping,
Wilder-smoothed averages via
`ewm(alpha=1/period, adjust=False, min_periods=period).mean()`,
`rs = avg_gain / avg_loss.replace(0, nan)`, `rsi = 100 − 100/(1+rs)`,
then `rsi.fillna(100).round(2)`.
-/

/-- `Series.diff()`: `NaN` at position 0, successive differences after. -/
def diffSeries (xs : List ℚ) : List (Option ℚ) :=
  match xs with
  | [] => []
  | _ :: tl => none :: (xs.zip tl).map (fun p => some (p.2 - p.1))

/-- pandas `ewm(alpha=a, adjust=False, min_periods=p).mean()`,
specialised to series whose missing entries all precede the first
observation (the only shape the calculators produce: at most one leading
`NaN` from `diff()`/`shift()`).  `prev` carries the running recursive mean
`y ← (1−a)·y + a·x`, `cnt` the number of observations so far; positions with
fewer than `p` observations are masked to `NaN`. -/
def ewmMeanAux (a : ℚ) (p : ℕ) (prev : Option ℚ) (cnt : ℕ) :
    List (Option ℚ) → List (Option ℚ)
  | [] => []
  | none :: xs => none :: ewmMeanAux a p prev cnt xs
  | some v :: xs =>
    let avg := match prev with
      | none => v
      | some w => (1 - a) * w + a * v
    (if p ≤ cnt + 1 then some avg else none) ::
      ewmMeanAux a p (some avg) (cnt + 1) xs

/-- `ewm(alpha=a, adjust=False, min_periods=p).mean()` from a fresh state. -/
def ewmMean (a : ℚ) (p : ℕ) (xs : List (Option ℚ)) : List (Option ℚ) :=
  ewmMeanAux a p none 0 xs

/-- `delta.clip(lower=0)`. -/
def rsi_gain (close : List ℚ) : List (Option ℚ) :=
  (diffSeries close).map (Option.map (fun d => max d 0))

/-- `-delta.clip(upper=0)`. -/
def rsi_loss (close : List ℚ) : List (Option ℚ) :=
  (diffSeries close).map (Option.map (fun d => max (-d) 0))

/-- `gain.ewm(alpha=1/period, adjust=False, min_periods=period).mean()`. -/
def rsi_avg_gain (close : List ℚ) (period : ℕ) : List (Option ℚ) :=
  ewmMean (1 / (period : ℚ)) period (rsi_gain close)

/-- `loss.ewm(alpha=1/period, adjust=False, min_periods=period).mean()`. -/
def rsi_avg_loss (close : List ℚ) (period : ℕ) : List (Option ℚ) :=
  ewmMean (1 / (period : ℚ)) period (rsi_loss close)

/-- `avg_gain / avg_loss.replace(0, np.nan)`: `NaN` when either average is
`NaN` or the average loss is zero (0/0 and x/NaN are `NaN`). -/
def rsi_rs (close : List ℚ) (period : ℕ) : List (Option ℚ) :=
  List.zipWith
    (fun g l =>
      match g, l with
      | some gv, some lv => if lv = 0 then none else some (gv / lv)
      | _, _ => none)
    (rsi_avg_gain close period) (rsi_avg_loss close period)

/-- `calculate_rsi_series`: `100 − 100/(1+rs)`, then `.fillna(100).round(2)`. -/
def calculate_rsi_series (close : List ℚ) (period : ℕ) : List (Option ℚ) :=
  ((rsi_rs close period).map (Option.map (fun r => 100 - 100 / (1 + r)))).map
    (fun o => some (round2 (o.getD 100)))

/-!
## ATR and Supertrend — indicators_helper.py lines 93–189

`calculate_atr`: true range = row-wise max of `high−low`, `|high−prev close|`,
`|low−prev close|` (the shifted terms are NaN at row 0 and `max` skips NaN),
Wilder-smoothed with `min_periods=period`, rounded to 2 decimals.
`calculate_supertrend`: basic bands `hl2 ± multiplier·ATR`, two sequential
in-place loops (final bands, then supertrend/direction), seeded at row 0 with
`supertrend = final_ub[0]`, `direction = −1`.  All float comparisons against
a NaN band are false, exactly as in the Python loops.
-/

/-- One row of the OHLCV price frame fed to `calculate_indicators`. -/
structure Bar where
  date : ℕ
  open_ : ℚ
  high : ℚ
  low : ℚ
  close : ℚ
  volume : ℚ
deriving DecidableEq, Repr

/-- `pd.concat([high−low, |high−close.shift()|, |low−close.shift()|]).max(axis=1)`:
at row 0 only `high−low` is non-NaN. -/
def trueRange (df : List Bar) : List ℚ :=
  match df with
  | [] => []
  | b0 :: _ =>
    (b0.high - b0.low) ::
      (df.zip df.tail).map (fun p =>
        max (p.2.high - p.2.low) (max |p.2.high - p.1.close| |p.2.low - p.1.close|))

/-- `calculate_atr` (indicators_helper.py lines 93–111). -/
def calculate_atr (df : List Bar) (period : ℕ) : List (Option ℚ) :=
  (ewmMean (1 / (period : ℚ)) period ((trueRange df).map some)).map
    (Option.map round2)

/-- `basic_ub = (high+low)/2 + multiplier·ATR` (NaN while ATR warms up). -/
def basic_ub (df : List Bar) (atr_period multiplier : ℕ) : List (Option ℚ) :=
  List.zipWith
    (fun b a => a.map (fun v => (b.high + b.low) / 2 + (multiplier : ℚ) * v))
    df (calculate_atr df atr_period)

/-- `basic_lb = (high+low)/2 − multiplier·ATR`. -/
def basic_lb (df : List Bar) (atr_period multiplier : ℕ) : List (Option ℚ) :=
  List.zipWith
    (fun b a => a.map (fun v => (b.high + b.low) / 2 - (multiplier : ℚ) * v))
    df (calculate_atr df atr_period)

/-- A sequential in-place pandas loop `for i in range(1, n): x[i] = step(x[i-1], row i)`
materialised as the list of updated cells (the seed cell excluded). -/
def rowScan {α β : Type} (step : β → α → β) (prev : β) : List α → List β
  | [] => []
  | x :: rest =>
    let f := step prev x
    f :: rowScan step f rest

/-- The body of the first loop for the upper band: take `basic_ub[i]` when
`basic_ub[i] < final_ub[i-1]` or `close[i-1] > final_ub[i-1]`, else keep. -/
def final_ub_step (prev : Option ℚ) (pb : ℚ × Option ℚ) : Option ℚ :=
  if oLt pb.2 prev || oGt (some pb.1) prev then pb.2 else prev

/-- The mirrored body for the lower band. -/
def final_lb_step (prev : Option ℚ) (pb : ℚ × Option ℚ) : Option ℚ :=
  if oGt pb.2 prev || oLt (some pb.1) prev then pb.2 else prev

/-- `final_ub` after the first loop: cell 0 keeps `basic_ub[0]`; cell `i ≥ 1`
is updated from `(close[i-1], basic_ub[i])` and the previous final band. -/
def final_ub (df : List Bar) (atr_period multiplier : ℕ) : List (Option ℚ) :=
  match basic_ub df atr_period multiplier with
  | [] => []
  | b0 :: brest => b0 :: rowScan final_ub_step b0 ((df.map Bar.close).zip brest)

/-- `final_lb` after its loop, mirroring `final_ub`. -/
def final_lb (df : List Bar) (atr_period multiplier : ℕ) : List (Option ℚ) :=
  match basic_lb df atr_period multiplier with
  | [] => []
  | b0 :: brest => b0 :: rowScan final_lb_step b0 ((df.map Bar.close).zip brest)

/-- The body of the second loop: uptrend (+1, lower band) when
`close[i] > supertrend[i-1]`, else downtrend (−1, upper band). -/
def st_step (prev : Option ℚ × Int) (t : ℚ × Option ℚ × Option ℚ) :
    Option ℚ × Int :=
  if oGt (some t.1) prev.1 then (t.2.2, 1) else (t.2.1, -1)

/-- The supertrend/direction cells before the final rounding: row 0 is seeded
`(final_ub[0], −1)`; row `i ≥ 1` is stepped from `(close[i], final_ub[i],
final_lb[i])`. -/
def supertrendCore (df : List Bar) (atr_period multiplier : ℕ) :
    List (Option ℚ × Int) :=
  match final_ub df atr_period multiplier, final_lb df atr_period multiplier,
      df with
  | fu0 :: fuRest, _ :: flRest, _ :: dfRest =>
    (fu0, -1) ::
      rowScan st_step (fu0, -1)
        (List.zipWith (fun b p => (b.close, p.1, p.2)) dfRest (fuRest.zip flRest))
  | _, _, _ => []

/-- `calculate_supertrend` (indicators_helper.py lines 137–189): the loop
cells, with the supertrend column rounded to 2 decimals on return. -/
def calculate_supertrend (df : List Bar) (atr_period : ℕ := 10)
    (multiplier : ℕ := 3) : List (Option ℚ) × List Int :=
  ((supertrendCore df atr_period multiplier).map (fun s => s.1.map round2),
   (supertrendCore df atr_period multiplier).map (fun s => s.2))

/-!
## Daily → weekly/monthly aggregation — weekly_monthly_service.py lines 140–211

`generate_higher_timeframes` resamples each symbol's daily bars with
`resample("W-FRI")` (weekly, periods labelled by their Friday) and
`resample("M")` (monthly, labelled by the calendar month end), aggregating
open=first / high=max / low=min / close=last / volume=sum, drops empty
periods (`dropna`), keeps only periods labelled on/before the last daily
bar, and rounds the OHLCV columns to 2 decimals.  Dates are day indices with
day 0 a Monday; the weekly label function is concrete, while the monthly
(calendar month-end) label stays an arbitrary parameter `label` — every
property proved for all `label` covers it. -/

/-- The Friday on/after day `d` — the `W-FRI` period label of `d`'s week. -/
def fridayLabel (d : ℕ) : ℕ := d + (11 - d % 7) % 7

/-- `resample(label).agg({open: first, high: max, low: min, close: last,
volume: sum}).dropna()`: one bar per non-empty period, dated by the label. -/
def resampleAgg (label : ℕ → ℕ) (days : List Bar) : List Bar :=
  ((days.map (fun b => label b.date)).dedup).filterMap (fun k =>
    match days.filter (fun b => decide (label b.date = k)) with
    | [] => none
    | g0 :: grest =>
      some { date := k,
             open_ := g0.open_,
             high := (grest.map Bar.high).foldl max g0.high,
             low := (grest.map Bar.low).foldl min g0.low,
             close := ((g0 :: grest).getLast (List.cons_ne_nil g0 grest)).close,
             volume := (grest.map Bar.volume).foldl (· + ·) g0.volume })

/-- `df_daily.index.max()`, the symbol's last available daily date. -/
def lastDailyDate (days : List Bar) : ℕ := (days.map Bar.date).foldl max 0

/-- One symbol / one higher timeframe of `generate_higher_timeframes`:
resample by `label`, drop periods after the last daily bar, round. -/
def higherTF (label : ℕ → ℕ) (days : List Bar) : List Bar :=
  ((resampleAgg label days).filter
      (fun b => decide (b.date ≤ lastDailyDate days))).map
    (fun b => { b with open_ := round2 b.open_, high := round2 b.high,
                       low := round2 b.low, close := round2 b.close,
                       volume := round2 b.volume })

/-- The weekly (`W-FRI`) output of `generate_higher_timeframes`. -/
def generateWeekly (days : List Bar) : List Bar := higherTF fridayLabel days

/-- The spec's example trading week: five daily bars Monday (day 0) through
Friday (day 4) with closes [100, 102, 99, 105, 103]. -/
def mondayToFridayWeek : List Bar :=
  [⟨0, 100, 101, 99, 100, 10⟩,
   ⟨1, 101, 103, 100, 102, 20⟩,
   ⟨2, 100, 101, 98, 99, 30⟩,
   ⟨3, 104, 106, 103, 105, 40⟩,
   ⟨4, 104, 105, 102, 103, 50⟩]

/-- The single weekly bar the example week aggregates to. -/
def fullWeekBar : Bar :=
  { date := 4, open_ := 100, high := 106, low := 98, close := 103,
    volume := 150 }

/-!
## Incremental indicator refresh — indicator_service.py lines 111–179

Per (symbol, timeframe): `SELECT MAX(date)` over the persisted indicator
rows; if a last date exists, fetch the price bars dated on/after the bar
sitting `lookback_rows` back from that date (`ORDER BY date DESC OFFSET
lookback_rows LIMIT 1` — when that subquery is empty, `date >= NULL` selects
nothing), recompute, and keep only rows with `date > last` before inserting;
with no last date, compute and insert over the full history.  Only the
inserted dates matter to the claim, so the unit is modelled on date lists.
-/

/-- `MAX(date)` over a set of persisted rows (`NULL` on the empty set). -/
def maxDate : List ℕ → Option ℕ
  | [] => none
  | d :: rest => some (rest.foldl max d)

/-- The lookback price window used when a last indicator date exists. -/
def fetchWindow (lookback_rows : ℕ) (prices : List ℕ) (last : ℕ) : List ℕ :=
  match ((prices.filter (fun d => decide (d ≤ last))).mergeSort
      (fun a b => decide (b ≤ a)))[lookback_rows]? with
  | none => []
  | some w0 => prices.filter (fun d => decide (w0 ≤ d))

/-- One (symbol, timeframe) unit of `refresh_indicators`: the dates of the
indicator rows inserted by the run. -/
def refreshOnce (lookback_rows : ℕ) (prices persisted : List ℕ) : List ℕ :=
  match maxDate persisted with
  | none => prices
  | some last =>
    (fetchWindow lookback_rows prices last).filter (fun d => decide (last < d))

/-!
## Scanner error handling — scanner_HM.py lines 135–172 and
backtest_service.py lines 14–37

`run_scanner_hilega_milega` wraps its whole body in `try/except Exception`:
`validate_asset_type` raises `ValueError` for an asset type outside
`ASSET_TABLE_MAP`, but the top-level handler catches every exception, logs
it, and returns an empty DataFrame.  `backtest_scanners` never raises for an
unknown asset type at all: it logs `Unsupported asset_type` and returns an
empty DataFrame.  An operation's observable outcome is an
`Except String α`: `.error` = a Python exception escaping to the caller,
`.ok` = a normal return.
-/

/-- The keys of `ASSET_TABLE_MAP` (config/db_table.py). -/
def ASSET_TABLE_MAP_keys : List String :=
  ["india_equity_yahoo", "india_equity_yahoo_calc", "india_equity_test",
   "usa_equity", "india_index", "global_index", "commodity", "crypto",
   "forex"]

/-- Python `str.lower()` for the ASCII strings used as asset types. -/
def strToLower (s : String) : String := ⟨s.data.map Char.toLower⟩

/-- `validate_asset_type` (validation_service.py lines 133–195): the
lower-cased asset type must be a key of `ASSET_TABLE_MAP`, else ValueError. -/
def validate_asset_type (asset_type : String) : Except String String :=
  if strToLower asset_type ∈ ASSET_TABLE_MAP_keys then .ok (strToLower asset_type)
  else .error ("Invalid asset_type " ++ asset_type)

/-- `run_scanner_hilega_milega` (scanner_HM.py lines 135–172): validate,
fetch the base frame (given here as `base`), apply the HM logic; the
`except Exception` handler converts ANY raised error into an empty frame, so
the caller always receives a normal return. -/
def run_scanner_hilega_milega (asset_type : String) (base : List HMRow) :
    Except String (List HMRow) :=
  let body : Except String (List HMRow) := do
    let _ ← validate_asset_type asset_type
    if base.isEmpty then
      pure []
    else
      pure (apply_hilega_milega_logic base)
  .ok (match body with
    | .ok v => v
    | .error _ => [])

/-- `backtest_scanners` (backtest_service.py lines 14–37 and 88–114):
`folder = none` models no folder path; each file is a list of
(signal date, symbol id) rows; `prices` is each symbol's daily series.  All
three guards — no folder, no CSV files, unknown asset type — log and return
an empty frame rather than raising; otherwise each file's signals are
evaluated into trades. -/
def backtest_scanners (asset_type : String)
    (folder : Option (List (List (ℕ × ℕ)))) (prices : ℕ → List PxBar) :
    Except String (List (List Trade)) :=
  match folder with
  | none => .ok []
  | some csv_files =>
    if csv_files.isEmpty then .ok []
    else if asset_type ∉ ASSET_TABLE_MAP_keys then .ok []
    else .ok (csv_files.map (fun file =>
      file.filterMap (fun s => eval_signal (prices s.2) s.1)))

/-!
## The remaining calculators and `calculate_indicators` —
indicator_service.py lines 27–71, indicators_helper.py lines 10–37, 65–132,
191–225

`safe_indicator` is one generic decorator: it calls the wrapped calculator
and, on any exception, logs and returns an all-NaN series over
`args[0].index` — except for `calculate_supertrend`, for which it returns a
PAIR of all-NaN series.  For the tuple-valued `calculate_bollinger` and
`calculate_macd` the error value is therefore a single series, and the
caller's tuple-unpacking assignment (`df[a], df[b], df[c] = result`) then
iterates that series: it succeeds only when the frame has exactly as many
rows as unpacking targets (broadcasting scalar NaNs into the columns), and
raises ValueError otherwise — an exception `calculate_indicators`' own
`except` clause catches, returning the frame as mutated so far.
Failures of a calculator are modelled by `Except.error`; the pure default
cores below never fail, while the C7 statements quantify over arbitrary
fallible cores.  `Rat.sqrt` stands in for the float square root in the
Bollinger standard deviation (exact on perfect squares; no claim concerns
Bollinger numerics).
-/

/-- `Series.rolling(period)`: the full trailing window at each position once
`period` observations exist, `NaN` (none) before. -/
def rollingWindows {α : Type} (period : ℕ) (xs : List α) : List (Option (List α)) :=
  (List.range xs.length).map (fun i =>
    if period ≤ i + 1 then some ((xs.take (i + 1)).drop (i + 1 - period))
    else none)

/-- `Series.rolling(period).mean()`. -/
def rollingMean (period : ℕ) (xs : List ℚ) : List (Option ℚ) :=
  (rollingWindows period xs).map
    (Option.map (fun w => w.foldl (· + ·) 0 / (period : ℚ)))

/-- `calculate_ema` (indicators_helper.py lines 194–205):
`ewm(span=period, adjust=False).mean().round(2)` — α = 2/(period+1), no
minimum-period gate. -/
def calculate_ema (xs : List (Option ℚ)) (period : ℕ) : List (Option ℚ) :=
  (ewmMean (2 / ((period : ℚ) + 1)) 1 xs).map (Option.map round2)

/-- `calculate_wma` (indicators_helper.py lines 210–225): rolling dot with
weights 1..period divided by their sum; `NaN` until the window is full or if
the window holds a `NaN`. -/
def calculate_wma (xs : List (Option ℚ)) (period : ℕ) : List (Option ℚ) :=
  (rollingWindows period xs).map (fun ow =>
    match ow with
    | none => none
    | some w =>
      if w.all Option.isSome then
        some (round2
          ((List.zipWith (fun o j => o.getD 0 * ((j + 1 : ℕ) : ℚ))
              w (List.range period)).foldl (· + ·) 0 /
            (((period * (period + 1) : ℕ) : ℚ) / 2)))
      else none)

/-- The sample standard deviation (`ddof = 1`) of a full window. -/
def sampleStd (w : List ℚ) (period : ℕ) : ℚ :=
  let mean := w.foldl (· + ·) 0 / (period : ℚ)
  Rat.sqrt ((w.map (fun x => (x - mean) ^ 2)).foldl (· + ·) 0 /
    ((period : ℚ) - 1))

/-- `calculate_bollinger` (indicators_helper.py lines 68–88):
(upper, middle, lower) with period 20 and multiplier 2, rounded on return. -/
def calculate_bollinger (close : List ℚ) :
    List (Option ℚ) × List (Option ℚ) × List (Option ℚ) :=
  let mid := rollingMean 20 close
  let std := (rollingWindows 20 close).map (Option.map (fun w => sampleStd w 20))
  let upper := List.zipWith
    (fun a b => match a, b with
      | some x, some y => some (x + 2 * y) | _, _ => none) mid std
  let lower := List.zipWith
    (fun a b => match a, b with
      | some x, some y => some (x - 2 * y) | _, _ => none) mid std
  (upper.map (Option.map round2), mid.map (Option.map round2),
   lower.map (Option.map round2))

/-- `calculate_macd` (indicators_helper.py lines 117–132): EMA(12) − EMA(26)
and its EMA(9) signal, both rounded on return. -/
def calculate_macd (close : List ℚ) : List (Option ℚ) × List (Option ℚ) :=
  let ema_12 := ewmMean (2 / 13) 1 (close.map some)
  let ema_26 := ewmMean (2 / 27) 1 (close.map some)
  let macd := List.zipWith
    (fun a b => match a, b with
      | some x, some y => some (x - y) | _, _ => none) ema_12 ema_26
  let signal := ewmMean (2 / 10) 1 macd
  (macd.map (Option.map round2), signal.map (Option.map round2))

/-- `close.pct_change(fill_method=None).mul(100).round(2)`; a zero previous
close (impossible for real prices, `±inf`/`NaN` in floats) maps to null. -/
def pct_price_change_col (close : List ℚ) : List (Option ℚ) :=
  match close with
  | [] => []
  | _ :: tl =>
    none :: (close.zip tl).map (fun p =>
      if p.1 = 0 then none else some (round2 ((p.2 - p.1) / p.1 * 100)))

/-- The seven decorated calculators as fallible computations: `.error`
models the wrapped core raising an exception, `.ok` its value. -/
structure Calculators where
  rsi : List ℚ → ℕ → Except String (List (Option ℚ))
  ema : List (Option ℚ) → ℕ → Except String (List (Option ℚ))
  wma : List (Option ℚ) → ℕ → Except String (List (Option ℚ))
  bollinger : List ℚ →
    Except String (List (Option ℚ) × List (Option ℚ) × List (Option ℚ))
  atr : List Bar → Except String (List (Option ℚ))
  supertrend : List Bar → Except String (List (Option ℚ) × List Int)
  macd : List ℚ → Except String (List (Option ℚ) × List (Option ℚ))

/-- `safe_indicator` at a series-valued calculator: on error, an all-null
series over the input's index (`n` = its length). -/
def safe_series (n : ℕ) (r : Except String (List (Option ℚ))) :
    List (Option ℚ) :=
  match r with
  | .ok v => v
  | .error _ => List.replicate n none

/-- `safe_indicator` at `calculate_supertrend` (the decorator's special
case): on error, a pair of all-null series; the int-dtype direction series
is coerced to all-NaN floats, i.e. an all-null column. -/
def safe_supertrend (n : ℕ)
    (r : Except String (List (Option ℚ) × List Int)) :
    List (Option ℚ) × List (Option ℤ) :=
  match r with
  | .ok v => (v.1, v.2.map some)
  | .error _ => (List.replicate n none, List.replicate n none)

/-- `safe_indicator` at `calculate_bollinger`: on error the decorator
returns ONE null series, not a triple. -/
def safe_bollinger (n : ℕ)
    (r : Except String (List (Option ℚ) × List (Option ℚ) × List (Option ℚ))) :
    Sum (List (Option ℚ) × List (Option ℚ) × List (Option ℚ))
      (List (Option ℚ)) :=
  match r with
  | .ok t => .inl t
  | .error _ => .inr (List.replicate n none)

/-- `safe_indicator` at `calculate_macd`: on error, ONE null series. -/
def safe_macd (n : ℕ)
    (r : Except String (List (Option ℚ) × List (Option ℚ))) :
    Sum (List (Option ℚ) × List (Option ℚ)) (List (Option ℚ)) :=
  match r with
  | .ok t => .inl t
  | .error _ => .inr (List.replicate n none)

/-- The indicator frame `calculate_indicators` mutates: the caller's price
columns plus the indicator columns, each `none` until assigned. -/
structure IndFrame where
  base : List Bar
  sma_20 : Option (List (Option ℚ)) := none
  sma_50 : Option (List (Option ℚ)) := none
  sma_200 : Option (List (Option ℚ)) := none
  rsi_3 : Option (List (Option ℚ)) := none
  rsi_9 : Option (List (Option ℚ)) := none
  rsi_14 : Option (List (Option ℚ)) := none
  ema_rsi_9_3 : Option (List (Option ℚ)) := none
  wma_rsi_9_21 : Option (List (Option ℚ)) := none
  bb_upper : Option (List (Option ℚ)) := none
  bb_middle : Option (List (Option ℚ)) := none
  bb_lower : Option (List (Option ℚ)) := none
  atr_14 : Option (List (Option ℚ)) := none
  supertrend_col : Option (List (Option ℚ)) := none
  supertrend_dir : Option (List (Option ℤ)) := none
  macd : Option (List (Option ℚ)) := none
  macd_signal : Option (List (Option ℚ)) := none
  pct_price_change : Option (List (Option ℚ)) := none
deriving DecidableEq, Repr

/-- The one-element list holding a list's last element ([] when empty). -/
def lastOf {α : Type} (l : List α) : List α := l.getLast?.toList

/-- `df.iloc[[-1]].reset_index(drop=True)`: the one-row frame holding the
last row of every (present) column. -/
def lastRowFrame (fr : IndFrame) : IndFrame :=
  { base := lastOf fr.base,
    sma_20 := Option.map lastOf fr.sma_20,
    sma_50 := Option.map lastOf fr.sma_50,
    sma_200 := Option.map lastOf fr.sma_200,
    rsi_3 := Option.map lastOf fr.rsi_3,
    rsi_9 := Option.map lastOf fr.rsi_9,
    rsi_14 := Option.map lastOf fr.rsi_14,
    ema_rsi_9_3 := Option.map lastOf fr.ema_rsi_9_3,
    wma_rsi_9_21 := Option.map lastOf fr.wma_rsi_9_21,
    bb_upper := Option.map lastOf fr.bb_upper,
    bb_middle := Option.map lastOf fr.bb_middle,
    bb_lower := Option.map lastOf fr.bb_lower,
    atr_14 := Option.map lastOf fr.atr_14,
    supertrend_col := Option.map lastOf fr.supertrend_col,
    supertrend_dir := Option.map lastOf fr.supertrend_dir,
    macd := Option.map lastOf fr.macd,
    macd_signal := Option.map lastOf fr.macd_signal,
    pct_price_change := Option.map lastOf fr.pct_price_change }

/-- `calculate_indicators` (indicator_service.py lines 27–71) over an
arbitrary calculator bundle.  `validate_dataframe_columns` raises (i.e.
`.error`, uncaught — it runs before the `try`) on an empty frame; inside the
`try`, columns are assigned in source order; a tuple-unpacking ValueError
from a failed Bollinger/MACD is caught by the `except` clause, which returns
the frame as mutated so far (`return df`, ignoring `latest_only`).  The
final re-rounding loop is a no-op (every column is already rounded). -/
def calculate_indicators_with (cals : Calculators) (df : List Bar)
    (latest_only : Bool) : Except String IndFrame :=
  if df.isEmpty then .error "Calculate indicators: DataFrame is empty"
  else
    let n := df.length
    let close := df.map Bar.close
    let rsi9 := safe_series n (cals.rsi close 9)
    let f1 : IndFrame :=
      { base := df,
        sma_20 := some ((rollingMean 20 close).map (Option.map round2)),
        sma_50 := some ((rollingMean 50 close).map (Option.map round2)),
        sma_200 := some ((rollingMean 200 close).map (Option.map round2)),
        rsi_3 := some (safe_series n (cals.rsi close 3)),
        rsi_9 := some rsi9,
        rsi_14 := some (safe_series n (cals.rsi close 14)),
        ema_rsi_9_3 := some (safe_series n (cals.ema rsi9 3)),
        wma_rsi_9_21 := some (safe_series n (cals.wma rsi9 21)) }
    match safe_bollinger n (cals.bollinger close) with
    | .inr s =>
      if s.length = 3 then
        calculate_indicators_rest cals df latest_only
          { f1 with bb_upper := some (List.replicate n none),
                    bb_middle := some (List.replicate n none),
                    bb_lower := some (List.replicate n none) }
      else .ok f1
    | .inl t =>
      calculate_indicators_rest cals df latest_only
        { f1 with bb_upper := some t.1, bb_middle := some t.2.1,
                  bb_lower := some t.2.2 }
where
  -- the column assignments after the Bollinger block
  calculate_indicators_rest (cals : Calculators) (df : List Bar)
      (latest_only : Bool) (f2 : IndFrame) : Except String IndFrame :=
    let n := df.length
    let close := df.map Bar.close
    let st := safe_supertrend n (cals.supertrend df)
    let f3 := { f2 with atr_14 := some (safe_series n (cals.atr df)),
                        supertrend_col := some st.1,
                        supertrend_dir := some st.2 }
    match safe_macd n (cals.macd close) with
    | .inr s =>
      if s.length = 2 then
        let f4 := { f3 with macd := some (List.replicate n none),
                            macd_signal := some (List.replicate n none),
                            pct_price_change := some (pct_price_change_col close) }
        .ok (if latest_only then lastRowFrame f4 else f4)
      else .ok f3
    | .inl p =>
      let f4 := { f3 with macd := some p.1, macd_signal := some p.2,
                          pct_price_change := some (pct_price_change_col close) }
      .ok (if latest_only then lastRowFrame f4 else f4)

/-- The pure embeddings of the seven calculators (these never raise). -/
def defaultCalculators : Calculators where
  rsi := fun close period => .ok (calculate_rsi_series close period)
  ema := fun xs period => .ok (calculate_ema xs period)
  wma := fun xs period => .ok (calculate_wma xs period)
  bollinger := fun close => .ok (calculate_bollinger close)
  atr := fun df => .ok (calculate_atr df 14)
  supertrend := fun df => .ok (calculate_supertrend df)
  macd := fun close => .ok (calculate_macd close)

/-- `calculate_indicators` as shipped: the default calculator bundle. -/
def calculate_indicators (df : List Bar) (latest_only : Bool) :
    Except String IndFrame :=
  calculate_indicators_with defaultCalculators df latest_only

/-- A bundle whose Bollinger core raises on every input. -/
def failingBollingerCals : Calculators :=
  { defaultCalculators with bollinger := fun _ => .error "boom" }

/-- A concrete four-row frame (4 ≠ 3 unpacking targets). -/
def cexDf : List Bar :=
  [⟨0, 1, 2, 1, 2, 5⟩, ⟨1, 2, 3, 2, 3, 5⟩, ⟨2, 3, 4, 3, 4, 5⟩,
   ⟨3, 4, 5, 4, 5, 5⟩]

/-- A concrete two-row frame for the C10 witness. -/
def smallDf : List Bar :=
  [⟨0, 10, 11, 9, 10, 100⟩, ⟨1, 10, 12, 10, 11, 120⟩]

theorem hm_mask_iff (r : HMRow) :
    hm_mask r = true ↔
      oGeC r.close 60 = true ∧ fdivGe r.rsi_3 r.rsi_9 (115/100) = true ∧
      fdivGt r.rsi_9 r.ema_rsi_9_3 (105/100) = true ∧
      fdivGe r.ema_rsi_9_3 r.wma_rsi_9_21 1 = true ∧
      oLtC r.rsi_3 60 = true ∧ oGtC r.rsi_3_weekly 60 = true ∧
      oGtC r.rsi_3_monthly 50 = true := by
  simp [hm_mask, Bool.and_eq_true, and_assoc]

/-- Sorting by (date desc, symbol asc) does not change which rows are signals:
membership in the scanner output is membership in the mask-filtered frame. -/
theorem mem_apply_hm_iff (df : List HMRow) (r : HMRow) :
    r ∈ apply_hilega_milega_logic df ↔ r ∈ df ∧ hm_mask r = true := by
  rw [apply_hilega_milega_logic, List.mem_mergeSort, List.mem_filter]

/-- C1 counterexample: on the spec's end-to-end example row (close 65,
rsi_9 55, ema_rsi_9_3 52, wma_rsi_9_21 50, weekly rsi_3 65, monthly rsi_3 55),
adjusting rsi_3 to 58 does NOT produce an included signal: 58/55 ≈ 1.055
fails the rsi_3/rsi_9 ≥ 1.15 condition, so the row stays excluded. -/
theorem hm_spec_row_58_still_excluded :
    hmSpecRow 58 ∉ apply_hilega_milega_logic [hmSpecRow 58] ∧
    fdivGe (some 58) (some 55) (115/100) = false := by
  constructor
  · rw [mem_apply_hm_iff]
    intro h
    have := h.2
    revert this
    decide
  · decide

/-- C1 (amended): a joined daily snapshot row is in the HM signal set iff it
is in the input frame and satisfies close ≥ 60, rsi_3/rsi_9 ≥ 1.15,
rsi_9/ema_rsi_9_3 > 1.05, ema_rsi_9_3/wma_rsi_9_21 ≥ 1.00, rsi_3 < 60,
weekly rsi_3 > 60 and monthly rsi_3 > 50 (comparisons with null are false);
the spec's example row is excluded when rsi_3 = 65, and — contrary to the
spec's prediction — still excluded when rsi_3 is adjusted to 58, because
58/55 < 1.15. -/
theorem hm_scanner_signal_set :
    (∀ (df : List HMRow) (r : HMRow),
        r ∈ apply_hilega_milega_logic df ↔
          r ∈ df ∧ oGeC r.close 60 = true ∧
            fdivGe r.rsi_3 r.rsi_9 (115/100) = true ∧
            fdivGt r.rsi_9 r.ema_rsi_9_3 (105/100) = true ∧
            fdivGe r.ema_rsi_9_3 r.wma_rsi_9_21 1 = true ∧
            oLtC r.rsi_3 60 = true ∧
            oGtC r.rsi_3_weekly 60 = true ∧
            oGtC r.rsi_3_monthly 50 = true)
    ∧ hmSpecRow 65 ∉ apply_hilega_milega_logic [hmSpecRow 65]
    ∧ hmSpecRow 58 ∉ apply_hilega_milega_logic [hmSpecRow 58] := by
  refine ⟨fun df r => ?_, ?_, ?_⟩
  · rw [mem_apply_hm_iff, hm_mask_iff]
  · rw [mem_apply_hm_iff]
    intro h
    have := h.2
    revert this
    decide
  · rw [mem_apply_hm_iff]
    intro h
    have := h.2
    revert this
    decide

/-- With bars strictly date-sorted and `e` the head of the bars strictly
after the signal date, the evaluator's second filter (bars on/after the
entry date) equals its first (bars strictly after the signal date). -/
theorem filter_entry_eq_filter_signal
    (prices : List PxBar) (d : ℕ) (e : PxBar) (rest : List PxBar)
    (hsort : prices.Pairwise (fun a b => a.date < b.date))
    (hfil : prices.filter (fun b => decide (d < b.date)) = e :: rest) :
    prices.filter (fun b => decide (e.date ≤ b.date)) =
      prices.filter (fun b => decide (d < b.date)) := by
  apply List.filter_congr
  intro b hb
  have hde : d < e.date := by
    have he : e ∈ prices.filter (fun b => decide (d < b.date)) := by
      rw [hfil]; exact List.mem_cons_self _ _
    simpa using (List.mem_filter.mp he).2
  have hpair := hsort.filter (fun b => decide (d < b.date))
  rw [hfil] at hpair
  have hrest : ∀ x ∈ rest, e.date < x.date := (List.pairwise_cons.mp hpair).1
  by_cases hbd : d < b.date
  · have hbmem : b ∈ e :: rest := by
      rw [← hfil]; exact List.mem_filter.mpr ⟨hb, by simpa⟩
    rcases List.mem_cons.mp hbmem with h | h
    · subst h; simp [hbd]
    · simp [Nat.le_of_lt (hrest b h), hbd]
  · have h2 : ¬ e.date ≤ b.date := by omega
    simp [h2, hbd]

/-- C2: over a strictly date-ordered daily price series, the backtest
evaluator takes entry = first bar strictly after the signal date, produces no
trade iff fewer than 6 bars exist counting from entry inclusive, and
otherwise exits at the 6th such bar (5 after entry) with
return% = (exit.close − entry.open)/entry.open · 100 exactly. -/
theorem backtest_entry_exit (prices : List PxBar) (d : ℕ)
    (hsort : prices.Pairwise (fun a b => a.date < b.date)) :
    (eval_signal prices d = none ↔
      (prices.filter (fun b => decide (d < b.date))).length < 6)
    ∧ (∀ e rest x, prices.filter (fun b => decide (d < b.date)) = e :: rest →
        (e :: rest)[5]? = some x →
        eval_signal prices d =
          some { entry_date := e.date, entry_open := e.open_,
                 exit_date := x.date, exit_close := x.close,
                 return_pct := (x.close - e.open_) / e.open_ * 100 }) := by
  constructor
  · cases hfil : prices.filter (fun b => decide (d < b.date)) with
    | nil => simp [eval_signal, hfil]
    | cons e rest =>
      simp only [eval_signal, hfil]
      rw [filter_entry_eq_filter_signal prices d e rest hsort hfil, hfil]
      by_cases hlen : (e :: rest).length < 6
      · rw [if_pos hlen]
        exact iff_of_true rfl hlen
      · have h6 : 6 ≤ (e :: rest).length := Nat.le_of_not_lt hlen
        have h5 : 5 < (e :: rest).length := by omega
        rw [if_neg hlen, List.getElem?_eq_getElem h5]
        exact iff_of_false (by simp) hlen
  · intro e rest x hfil h5
    have h5lt : 5 < (e :: rest).length := by
      rcases List.getElem?_eq_some.mp h5 with ⟨h, _⟩
      exact h
    have hlen : ¬ (e :: rest).length < 6 := by omega
    simp only [eval_signal, hfil]
    rw [filter_entry_eq_filter_signal prices d e rest hsort hfil, hfil,
      if_neg hlen, h5]

/-- C2 witness: on a concrete strictly-ordered seven-bar series with a signal
on day 0, the evaluator enters at day 1 (open 10) and exits at day 6
(close 16), returning (16 − 10)/10 · 100. -/
theorem backtest_entry_exit_witness :
    eval_signal wBars 0 =
      some { entry_date := 1, entry_open := 10, exit_date := 6, exit_close := 16,
             return_pct := (16 - 10) / 10 * 100 } :=
  (backtest_entry_exit wBars 0 (by decide)).2 ⟨1, 10, 11⟩
    [⟨2, 11, 12⟩, ⟨3, 12, 13⟩, ⟨4, 13, 14⟩, ⟨5, 14, 15⟩, ⟨6, 15, 16⟩, ⟨7, 16, 17⟩]
    ⟨6, 15, 16⟩ (by decide) (by decide)

theorem length_ewmMeanAux (a : ℚ) (p : ℕ) (xs : List (Option ℚ)) :
    ∀ (prev : Option ℚ) (cnt : ℕ), (ewmMeanAux a p prev cnt xs).length = xs.length := by
  induction xs with
  | nil => intro prev cnt; rfl
  | cons x xs ih =>
    intro prev cnt
    cases x <;> simp [ewmMeanAux, ih]

theorem length_diffSeries (xs : List ℚ) : (diffSeries xs).length = xs.length := by
  cases xs with
  | nil => rfl
  | cons x tl => simp [diffSeries]

theorem length_rsi_avg_gain (close : List ℚ) (period : ℕ) :
    (rsi_avg_gain close period).length = close.length := by
  simp [rsi_avg_gain, ewmMean, length_ewmMeanAux, rsi_gain, length_diffSeries]

theorem length_rsi_avg_loss (close : List ℚ) (period : ℕ) :
    (rsi_avg_loss close period).length = close.length := by
  simp [rsi_avg_loss, ewmMean, length_ewmMeanAux, rsi_loss, length_diffSeries]

/-- Warm-up masking of the recursive mean: with `cnt` prior observations and
all of `vs` observed, position `i` is masked while `cnt + i + 1 < p`. -/
theorem ewmMeanAux_warmup (a : ℚ) (p : ℕ) (vs : List ℚ) :
    ∀ (prev : Option ℚ) (cnt i : ℕ), i < vs.length → cnt + i + 1 < p →
      (ewmMeanAux a p prev cnt (vs.map some))[i]? = some none := by
  induction vs with
  | nil => intro prev cnt i hi _; simp at hi
  | cons v vs ih =>
    intro prev cnt i hi hp
    cases i with
    | zero =>
      have hmask : ¬ p ≤ cnt + 1 := by omega
      simp [ewmMeanAux, hmask]
    | succ j =>
      have hj : j < vs.length := by simpa using hi
      have hp2 : (cnt + 1) + j + 1 < p := by omega
      simpa [ewmMeanAux] using ih (some _) (cnt + 1) j hj hp2

/-- The gains series is one leading `NaN` then observed values. -/
theorem rsi_gain_shape (c : ℚ) (tl : List ℚ) :
    rsi_gain (c :: tl) =
      none :: (((c :: tl).zip tl).map (fun p => max (p.2 - p.1) 0)).map some := by
  simp [rsi_gain, diffSeries, List.map_map, Function.comp]

/-- The losses series is one leading `NaN` then observed values. -/
theorem rsi_loss_shape (c : ℚ) (tl : List ℚ) :
    rsi_loss (c :: tl) =
      none :: (((c :: tl).zip tl).map (fun p => max (-(p.2 - p.1)) 0)).map some := by
  simp [rsi_loss, diffSeries, List.map_map, Function.comp]

/-- During warm-up (index < period) the Wilder averages are still masked. -/
theorem rsi_avg_warmup (close : List ℚ) (period i : ℕ)
    (hi : i < close.length) (hp : i < period) :
    (rsi_avg_gain close period)[i]? = some none ∧
    (rsi_avg_loss close period)[i]? = some none := by
  cases close with
  | nil => simp at hi
  | cons c tl =>
    constructor
    · rw [rsi_avg_gain, ewmMean, rsi_gain_shape]
      cases i with
      | zero => simp [ewmMeanAux]
      | succ j =>
        have hj : j < (((c :: tl).zip tl).map (fun p => max (p.2 - p.1) 0)).length := by
          simp at hi ⊢; omega
        simpa [ewmMeanAux] using
          ewmMeanAux_warmup (1 / (period : ℚ)) period _ none 0 j hj (by omega)
    · rw [rsi_avg_loss, ewmMean, rsi_loss_shape]
      cases i with
      | zero => simp [ewmMeanAux]
      | succ j =>
        have hj : j < (((c :: tl).zip tl).map (fun p => max (-(p.2 - p.1)) 0)).length := by
          simp at hi ⊢; omega
        simpa [ewmMeanAux] using
          ewmMeanAux_warmup (1 / (period : ℚ)) period _ none 0 j hj (by omega)

theorem round2_hundred : round2 100 = 100 := by
  norm_num [round2, round_eq]

/-- C3 (amended): `calculate_rsi_series` never emits a null: the trailing
`fillna(100)` also fills the warm-up positions, so every position with
index < period carries exactly 100 (not null), and every output entry is
non-null; Wilder RSI values proper only appear once `period`
diff-observations exist. -/
theorem rsi_warmup_filled_with_100 (close : List ℚ) (period : ℕ) :
    (∀ i, i < close.length → i < period →
        (calculate_rsi_series close period)[i]? = some (some 100))
    ∧ ∀ o ∈ calculate_rsi_series close period, o.isSome = true := by
  constructor
  · intro i hi hp
    obtain ⟨hg, hl⟩ := rsi_avg_warmup close period i hi hp
    have hrs : (rsi_rs close period)[i]? = some none := by
      rw [rsi_rs, List.getElem?_zipWith, hg, hl]
    simp [calculate_rsi_series, hrs, round2_hundred]
  · intro o ho
    simp only [calculate_rsi_series, List.mem_map] at ho
    obtain ⟨x, _, hx⟩ := ho
    rw [← hx]
    rfl

/-- C3 counterexample: with close = [10, 11] and period 3, both positions
have fewer than 3 observations, yet the output is 100 at each — not null. -/
theorem rsi_warmup_not_null_cex :
    calculate_rsi_series [10, 11] 3 = [some 100, some 100] ∧
    (calculate_rsi_series [10, 11] 3)[0]? ≠ some none := by
  constructor <;> decide

/-- C4: wherever the Wilder-smoothed average loss is defined and exactly
zero, `calculate_rsi_series` yields exactly 100 (never null, infinite, or a
division error): `avg_loss.replace(0, nan)` turns the division into `NaN`
and the trailing `fillna(100)` maps it to 100. -/
theorem rsi_avg_loss_zero_gives_100 (close : List ℚ) (period i : ℕ)
    (hz : (rsi_avg_loss close period)[i]? = some (some 0)) :
    (calculate_rsi_series close period)[i]? = some (some 100) := by
  have hil : i < (rsi_avg_loss close period).length :=
    (List.getElem?_eq_some.mp hz).choose
  have hig : i < (rsi_avg_gain close period).length := by
    rw [length_rsi_avg_gain]
    rw [length_rsi_avg_loss] at hil
    exact hil
  have hrs : (rsi_rs close period)[i]? = some none := by
    rw [rsi_rs, List.getElem?_zipWith, List.getElem?_eq_getElem hig, hz]
    cases (rsi_avg_gain close period)[i] <;> simp
  simp [calculate_rsi_series, hrs, round2_hundred]

/-- C4 witness: on the rising series [1, 2, 3] with period 2 the average
loss at index 2 is zero and the RSI output there is exactly 100. -/
theorem rsi_avg_loss_zero_gives_100_witness :
    (calculate_rsi_series [1, 2, 3] 2)[2]? = some (some 100) :=
  rsi_avg_loss_zero_gives_100 [1, 2, 3] 2 2 (by decide)

theorem length_rowScan {α β : Type} (step : β → α → β) :
    ∀ (l : List α) (prev : β), (rowScan step prev l).length = l.length := by
  intro l
  induction l with
  | nil => intro prev; rfl
  | cons x rest ih => intro prev; simp [rowScan, ih]

/-- Indexing a seeded sequential loop: cell `i+1` is the step applied to
cell `i` and input `i`. -/
theorem rowScan_getElem {α β : Type} (step : β → α → β) :
    ∀ (l : List α) (prev : β) (i : ℕ),
      (prev :: rowScan step prev l)[i+1]? =
        match l[i]?, (prev :: rowScan step prev l)[i]? with
        | some x, some f => some (step f x)
        | _, _ => none := by
  intro l
  induction l with
  | nil => intro prev i; cases i <;> rfl
  | cons x rest ih =>
    intro prev i
    cases i with
    | zero => simp [rowScan]
    | succ j => simpa [rowScan] using ih (step prev x) j

theorem length_trueRange (df : List Bar) : (trueRange df).length = df.length := by
  cases df with
  | nil => rfl
  | cons b0 tl => simp [trueRange]

theorem length_calculate_atr (df : List Bar) (period : ℕ) :
    (calculate_atr df period).length = df.length := by
  simp [calculate_atr, ewmMean, length_ewmMeanAux, length_trueRange]

theorem length_basic_ub (df : List Bar) (p m : ℕ) :
    (basic_ub df p m).length = df.length := by
  simp [basic_ub, length_calculate_atr]

theorem length_basic_lb (df : List Bar) (p m : ℕ) :
    (basic_lb df p m).length = df.length := by
  simp [basic_lb, length_calculate_atr]

theorem length_final_ub (df : List Bar) (p m : ℕ) :
    (final_ub df p m).length = df.length := by
  have hb := length_basic_ub df p m
  rw [final_ub]
  cases hbu : basic_ub df p m with
  | nil =>
    rw [hbu] at hb
    simp only [List.length_nil] at hb ⊢
    omega
  | cons b0 brest =>
    rw [hbu] at hb
    simp only [List.length_cons, length_rowScan, List.length_zip,
      List.length_map] at hb ⊢
    omega

theorem length_final_lb (df : List Bar) (p m : ℕ) :
    (final_lb df p m).length = df.length := by
  have hb := length_basic_lb df p m
  rw [final_lb]
  cases hbu : basic_lb df p m with
  | nil =>
    rw [hbu] at hb
    simp only [List.length_nil] at hb ⊢
    omega
  | cons b0 brest =>
    rw [hbu] at hb
    simp only [List.length_cons, length_rowScan, List.length_zip,
      List.length_map] at hb ⊢
    omega

theorem final_ub_zero (df : List Bar) (p m : ℕ) :
    (final_ub df p m)[0]? = (basic_ub df p m)[0]? := by
  rw [final_ub]
  cases hbu : basic_ub df p m with
  | nil => rfl
  | cons b0 brest => simp

theorem final_lb_zero (df : List Bar) (p m : ℕ) :
    (final_lb df p m)[0]? = (basic_lb df p m)[0]? := by
  rw [final_lb]
  cases hbu : basic_lb df p m with
  | nil => rfl
  | cons b0 brest => simp

theorem final_ub_succ (df : List Bar) (p m : ℕ) (i : ℕ)
    (fuPrev bu : Option ℚ) (c : ℚ)
    (hprev : (final_ub df p m)[i]? = some fuPrev)
    (hbu : (basic_ub df p m)[i+1]? = some bu)
    (hc : (df.map Bar.close)[i]? = some c) :
    (final_ub df p m)[i+1]? =
      some (if oLt bu fuPrev || oGt (some c) fuPrev then bu else fuPrev) := by
  simp only [final_ub] at hprev ⊢
  cases hbu2 : basic_ub df p m with
  | nil => rw [hbu2] at hbu; simp at hbu
  | cons b0 brest =>
    simp only [hbu2] at hprev hbu ⊢
    have hbrest : brest[i]? = some bu := by simpa using hbu
    have hpair : ((df.map Bar.close).zip brest)[i]? = some (c, bu) :=
      List.getElem?_zip_eq_some.mpr ⟨hc, hbrest⟩
    rw [rowScan_getElem, hpair, hprev]
    simp [final_ub_step]

theorem final_lb_succ (df : List Bar) (p m : ℕ) (i : ℕ)
    (flPrev bl : Option ℚ) (c : ℚ)
    (hprev : (final_lb df p m)[i]? = some flPrev)
    (hbl : (basic_lb df p m)[i+1]? = some bl)
    (hc : (df.map Bar.close)[i]? = some c) :
    (final_lb df p m)[i+1]? =
      some (if oGt bl flPrev || oLt (some c) flPrev then bl else flPrev) := by
  simp only [final_lb] at hprev ⊢
  cases hbl2 : basic_lb df p m with
  | nil => rw [hbl2] at hbl; simp at hbl
  | cons b0 brest =>
    simp only [hbl2] at hprev hbl ⊢
    have hbrest : brest[i]? = some bl := by simpa using hbl
    have hpair : ((df.map Bar.close).zip brest)[i]? = some (c, bl) :=
      List.getElem?_zip_eq_some.mpr ⟨hc, hbrest⟩
    rw [rowScan_getElem, hpair, hprev]
    simp [final_lb_step]

theorem supertrendCore_zero (df : List Bar) (p m : ℕ) (fu0 : Option ℚ)
    (h : (final_ub df p m)[0]? = some fu0) :
    (supertrendCore df p m)[0]? = some (fu0, -1) := by
  rcases hfue : final_ub df p m with _ | ⟨f0, fuRest⟩
  · rw [hfue] at h; simp at h
  · have hlen := length_final_ub df p m
    rw [hfue] at hlen
    rcases hdfe : df with _ | ⟨d0, dfRest⟩
    · rw [hdfe] at hlen; simp at hlen
    · have hlenl := length_final_lb df p m
      rcases hfle : final_lb df p m with _ | ⟨l0, flRest⟩
      · rw [hfle, hdfe] at hlenl; simp at hlenl
      · rw [hfue] at h
        simp only [List.getElem?_cons_zero, Option.some.injEq] at h
        rw [hdfe] at hfue hfle
        simp only [supertrendCore, hfue, hfle]
        simp [h]

theorem supertrendCore_succ (df : List Bar) (p m : ℕ) (i : ℕ)
    (sPrev : Option ℚ × Int) (c : ℚ) (fu fl : Option ℚ)
    (hprev : (supertrendCore df p m)[i]? = some sPrev)
    (hc : (df.map Bar.close)[i+1]? = some c)
    (hfu : (final_ub df p m)[i+1]? = some fu)
    (hfl : (final_lb df p m)[i+1]? = some fl) :
    (supertrendCore df p m)[i+1]? =
      some (if oGt (some c) sPrev.1 then (fl, 1) else (fu, -1)) := by
  rcases hfue : final_ub df p m with _ | ⟨f0, fuRest⟩
  · rw [hfue] at hfu; simp at hfu
  rcases hfle : final_lb df p m with _ | ⟨l0, flRest⟩
  · rw [hfle] at hfl; simp at hfl
  rcases hdfe : df with _ | ⟨d0, dfRest⟩
  · rw [hdfe] at hc; simp at hc
  subst hdfe
  rw [hfue] at hfu
  rw [hfle] at hfl
  have hfu2 : fuRest[i]? = some fu := by simpa using hfu
  have hfl2 : flRest[i]? = some fl := by simpa using hfl
  rw [List.getElem?_map] at hc
  obtain ⟨b, hb, hbc⟩ := Option.map_eq_some'.mp hc
  have hb2 : dfRest[i]? = some b := by simpa using hb
  have hzip : (fuRest.zip flRest)[i]? = some (fu, fl) :=
    List.getElem?_zip_eq_some.mpr ⟨hfu2, hfl2⟩
  have htrip :
      (List.zipWith (fun b p => (b.close, p.1, p.2)) dfRest (fuRest.zip flRest))[i]?
        = some (c, fu, fl) := by
    rw [List.getElem?_zipWith, hb2, hzip]
    simp [hbc]
  simp only [supertrendCore, hfue, hfle] at hprev ⊢
  rw [rowScan_getElem, htrip, hprev]
  simp [st_step]

/-- C5: `calculate_supertrend` obeys exactly the claimed recurrences: the
final upper band keeps its previous value unless the new basic band is lower
or the previous close broke above it (lower band mirrored); the
supertrend/direction cells flip to (+1, final lower band) when the close
exceeds the previous supertrend and to (−1, final upper band) otherwise; row
0 is seeded with the basic/final upper band and direction −1; the returned
columns are the loop cells, the supertrend one rounded to 2 decimals. -/
theorem calculate_supertrend_recurrences (df : List Bar) (p m : ℕ) :
    ((final_ub df p m)[0]? = (basic_ub df p m)[0]?)
    ∧ ((final_lb df p m)[0]? = (basic_lb df p m)[0]?)
    ∧ (∀ i fuPrev bu c, (final_ub df p m)[i]? = some fuPrev →
        (basic_ub df p m)[i+1]? = some bu →
        (df.map Bar.close)[i]? = some c →
        (final_ub df p m)[i+1]? =
          some (if oLt bu fuPrev || oGt (some c) fuPrev then bu else fuPrev))
    ∧ (∀ i flPrev bl c, (final_lb df p m)[i]? = some flPrev →
        (basic_lb df p m)[i+1]? = some bl →
        (df.map Bar.close)[i]? = some c →
        (final_lb df p m)[i+1]? =
          some (if oGt bl flPrev || oLt (some c) flPrev then bl else flPrev))
    ∧ (∀ fu0, (final_ub df p m)[0]? = some fu0 →
        (supertrendCore df p m)[0]? = some (fu0, -1))
    ∧ (∀ i sPrev c fu fl, (supertrendCore df p m)[i]? = some sPrev →
        (df.map Bar.close)[i+1]? = some c →
        (final_ub df p m)[i+1]? = some fu →
        (final_lb df p m)[i+1]? = some fl →
        (supertrendCore df p m)[i+1]? =
          some (if oGt (some c) sPrev.1 then (fl, 1) else (fu, -1)))
    ∧ calculate_supertrend df p m =
        ((supertrendCore df p m).map (fun s => s.1.map round2),
         (supertrendCore df p m).map (fun s => s.2)) :=
  ⟨final_ub_zero df p m, final_lb_zero df p m,
   fun i fuPrev bu c h1 h2 h3 => final_ub_succ df p m i fuPrev bu c h1 h2 h3,
   fun i flPrev bl c h1 h2 h3 => final_lb_succ df p m i flPrev bl c h1 h2 h3,
   fun fu0 h => supertrendCore_zero df p m fu0 h,
   fun i sPrev c fu fl h1 h2 h3 h4 =>
     supertrendCore_succ df p m i sPrev c fu fl h1 h2 h3 h4,
   rfl⟩

/-- C6: (a) for every period-labelling function (in particular the calendar
month-end one) no emitted higher-timeframe bar is dated after the symbol's
last daily bar; (b) every emitted weekly bar aggregates its Friday-labelled
group with open=first, high=max, low=min, close=last, volume=sum (rounded to
2 decimals); (c) the example Monday–Friday week yields exactly one weekly
bar with those aggregates. -/
theorem generate_higher_timeframes_spec :
    (∀ (label : ℕ → ℕ) (days : List Bar) (b : Bar),
        b ∈ higherTF label days → b.date ≤ lastDailyDate days)
    ∧ (∀ (days : List Bar) (b : Bar), b ∈ generateWeekly days →
        ∃ g0 grest,
          days.filter (fun x => decide (fridayLabel x.date = b.date)) =
            g0 :: grest ∧
          b.open_ = round2 g0.open_ ∧
          b.high = round2 ((grest.map Bar.high).foldl max g0.high) ∧
          b.low = round2 ((grest.map Bar.low).foldl min g0.low) ∧
          b.close =
            round2 (((g0 :: grest).getLast (List.cons_ne_nil g0 grest)).close) ∧
          b.volume = round2 ((grest.map Bar.volume).foldl (· + ·) g0.volume))
    ∧ generateWeekly mondayToFridayWeek = [fullWeekBar] := by
  refine ⟨?_, ?_, ?_⟩
  · intro label days b hb
    simp only [higherTF, List.mem_map, List.mem_filter] at hb
    obtain ⟨b', ⟨_, hle⟩, hbe⟩ := hb
    subst hbe
    simpa using hle
  · intro days b hb
    simp only [generateWeekly, higherTF, List.mem_map, List.mem_filter] at hb
    obtain ⟨b', ⟨hmem, _⟩, hbe⟩ := hb
    simp only [resampleAgg, List.mem_filterMap] at hmem
    obtain ⟨k, _, hk⟩ := hmem
    rcases hg : days.filter (fun x => decide (fridayLabel x.date = k)) with
      _ | ⟨g0, grest⟩
    · rw [hg] at hk; simp at hk
    · rw [hg] at hk
      simp only [Option.some.injEq] at hk
      have hdate : b.date = k := by rw [← hbe, ← hk]
      refine ⟨g0, grest, ?_, ?_, ?_, ?_, ?_, ?_⟩ <;>
        simp [hdate, hg, ← hbe, ← hk]
  · decide

theorem foldl_max_init_le : ∀ (l : List ℕ) (a : ℕ), a ≤ l.foldl max a := by
  intro l
  induction l with
  | nil => intro a; exact Nat.le_refl a
  | cons x l ih =>
    intro a
    exact Nat.le_trans (Nat.le_max_left a x) (ih (max a x))

theorem le_foldl_max_of_mem : ∀ (l : List ℕ) (x : ℕ), x ∈ l →
    ∀ a, x ≤ l.foldl max a := by
  intro l
  induction l with
  | nil => intro x hx; simp at hx
  | cons y l ih =>
    intro x hx a
    rcases List.mem_cons.mp hx with h | h
    · subst h
      exact Nat.le_trans (Nat.le_max_right a x) (foldl_max_init_le l _)
    · exact ih x h (max a y)

theorem foldl_max_mem : ∀ (l : List ℕ) (a : ℕ),
    l.foldl max a = a ∨ l.foldl max a ∈ l := by
  intro l
  induction l with
  | nil => intro a; exact Or.inl rfl
  | cons x l ih =>
    intro a
    rcases ih (max a x) with h | h
    · rcases max_choice a x with hm | hm
      · exact Or.inl (by rw [List.foldl_cons, h, hm])
      · exact Or.inr (by rw [List.foldl_cons, h, hm]; exact List.mem_cons_self _ _)
    · exact Or.inr (List.mem_cons_of_mem x h)

theorem maxDate_eq_none_iff (l : List ℕ) : maxDate l = none ↔ l = [] := by
  cases l <;> simp [maxDate]

theorem maxDate_mem (l : List ℕ) (m : ℕ) (h : maxDate l = some m) : m ∈ l := by
  cases l with
  | nil => simp [maxDate] at h
  | cons d rest =>
    simp only [maxDate, Option.some.injEq] at h
    subst h
    rcases foldl_max_mem rest d with h | h
    · rw [h]; exact List.mem_cons_self _ _
    · exact List.mem_cons_of_mem d h

theorem le_maxDate (l : List ℕ) (m : ℕ) (h : maxDate l = some m) :
    ∀ x ∈ l, x ≤ m := by
  cases l with
  | nil => simp [maxDate] at h
  | cons d rest =>
    simp only [maxDate, Option.some.injEq] at h
    subst h
    intro x hx
    rcases List.mem_cons.mp hx with hh | hh
    · subst hh; exact foldl_max_init_le rest x
    · exact le_foldl_max_of_mem rest x hh d

theorem mem_of_mem_fetchWindow (lb : ℕ) (prices : List ℕ) (last d : ℕ)
    (h : d ∈ fetchWindow lb prices last) : d ∈ prices := by
  rw [fetchWindow] at h
  cases hw : ((prices.filter (fun d => decide (d ≤ last))).mergeSort
      (fun a b => decide (b ≤ a)))[lb]? with
  | none => rw [hw] at h; simp at h
  | some w0 =>
    rw [hw] at h
    exact (List.mem_filter.mp h).1

/-- C8: the refresh unit only ever writes rows dated strictly after the last
persisted indicator date, and rerunning it with no new price bars (the
persisted set now extended by the first run's inserts) inserts nothing. -/
theorem refresh_indicators_idempotent (lb : ℕ) (prices persisted : List ℕ) :
    (∀ last, maxDate persisted = some last →
        ∀ d ∈ refreshOnce lb prices persisted, last < d)
    ∧ refreshOnce lb prices
        (persisted ++ refreshOnce lb prices persisted) = [] := by
  constructor
  · intro last hlast d hd
    simp only [refreshOnce, hlast] at hd
    simpa using (List.mem_filter.mp hd).2
  · cases hmp : maxDate persisted with
    | none =>
      have hper : persisted = [] := (maxDate_eq_none_iff persisted).mp hmp
      have hins : refreshOnce lb prices persisted = prices := by
        simp [refreshOnce, hmp]
      rw [hins, hper, List.nil_append]
      cases hm2 : maxDate prices with
      | none =>
        have : prices = [] := (maxDate_eq_none_iff prices).mp hm2
        simp [refreshOnce, hm2, this, maxDate]
      | some m =>
        simp only [refreshOnce, hm2]
        rw [List.filter_eq_nil_iff]
        intro d hd
        have hdp := mem_of_mem_fetchWindow lb prices m d hd
        have := le_maxDate prices m hm2 d hdp
        simp only [decide_eq_true_eq]
        omega
    | some last =>
      cases hw : ((prices.filter (fun d => decide (d ≤ last))).mergeSort
          (fun a b => decide (b ≤ a)))[lb]? with
      | none =>
        have hins : refreshOnce lb prices persisted = [] := by
          simp [refreshOnce, hmp, fetchWindow, hw]
        rw [hins, List.append_nil]
        simp [refreshOnce, hmp, fetchWindow, hw]
      | some w0 =>
        have hw0 : w0 ≤ last := by
          have hmem : w0 ∈ (prices.filter (fun d => decide (d ≤ last))).mergeSort
              (fun a b => decide (b ≤ a)) := by
            have := List.getElem?_eq_some.mp hw
            obtain ⟨hlt, hget⟩ := this
            rw [← hget]
            exact List.getElem_mem hlt
          rw [List.mem_mergeSort] at hmem
          simpa using (List.mem_filter.mp hmem).2
        have hins : refreshOnce lb prices persisted =
            prices.filter (fun d => decide (last < d) && decide (w0 ≤ d)) := by
          simp [refreshOnce, hmp, fetchWindow, hw, List.filter_filter]
        have hlastmem : last ∈ persisted ++ refreshOnce lb prices persisted :=
          List.mem_append_left _ (maxDate_mem persisted last hmp)
        rw [hins] at hlastmem ⊢
        cases hm2 : maxDate (persisted ++
            prices.filter (fun d => decide (last < d) && decide (w0 ≤ d))) with
        | none =>
          rw [maxDate_eq_none_iff] at hm2
          rw [hm2] at hlastmem
          simp at hlastmem
        | some m =>
          simp only [refreshOnce, hm2]
          rw [List.filter_eq_nil_iff]
          intro d hd
          have hdp := mem_of_mem_fetchWindow lb prices m d hd
          have hle : d ≤ m := by
            by_cases hdl : d ≤ last
            · have hlm : last ≤ m :=
                le_maxDate _ m hm2 last hlastmem
              omega
            · have hdin : d ∈ prices.filter
                  (fun d => decide (last < d) && decide (w0 ≤ d)) := by
                rw [List.mem_filter]
                refine ⟨hdp, ?_⟩
                simp only [Bool.and_eq_true, decide_eq_true_eq]
                omega
              exact le_maxDate _ m hm2 d
                (List.mem_append_right _ hdin)
          simp only [decide_eq_true_eq]
          omega

/-- C9 counterexample: invoking the HM scanner and the backtest with the
unknown asset type "bogus" yields normal empty results (`.ok []`) — the
configuration error is caught (HM scanner) or never raised (backtest), not
surfaced to the caller. -/
theorem unknown_asset_type_silent_cex :
    run_scanner_hilega_milega "bogus" [hmSpecRow 58] = .ok [] ∧
    backtest_scanners "bogus" (some [[(1, 1)]]) (fun _ => wBars) = .ok [] := by
  constructor
  · have hv : validate_asset_type "bogus" =
        .error ("Invalid asset_type " ++ "bogus") := by rfl
    simp only [run_scanner_hilega_milega, hv]
    rfl
  · rfl

/-- C9 (amended): for every asset type whose (lower-cased) name is not a key
of the configured asset map, both scanner operations return a normal empty
result: `run_scanner_hilega_milega`'s top-level handler catches the
ValueError raised by validation, and `backtest_scanners` checks the map and
returns an empty frame without raising; neither surfaces an error. -/
theorem unknown_asset_type_swallowed (asset_type : String) (base : List HMRow)
    (folder : Option (List (List (ℕ × ℕ)))) (prices : ℕ → List PxBar)
    (h : strToLower asset_type ∉ ASSET_TABLE_MAP_keys)
    (h2 : asset_type ∉ ASSET_TABLE_MAP_keys) :
    run_scanner_hilega_milega asset_type base = .ok []
    ∧ backtest_scanners asset_type folder prices = .ok [] := by
  constructor
  · have hv : validate_asset_type asset_type =
        .error ("Invalid asset_type " ++ asset_type) := by
      simp [validate_asset_type, h]
    simp only [run_scanner_hilega_milega, hv]
    rfl
  · cases folder with
    | none => rfl
    | some csv_files =>
      by_cases hf : csv_files.isEmpty
      · simp [backtest_scanners, hf]
      · simp [backtest_scanners, hf, h2]

/-- C9 witness: the amended theorem applied at the concrete asset type
"bogus" with one one-signal file. -/
theorem unknown_asset_type_swallowed_witness :
    run_scanner_hilega_milega "bogus" [] = .ok []
    ∧ backtest_scanners "bogus" (some [[(1, 1)]]) (fun _ => []) = .ok [] :=
  unknown_asset_type_swallowed "bogus" [] (some [[(1, 1)]]) (fun _ => [])
    (by decide) (by decide)

theorem rest_ok_rsi (cals : Calculators) (df : List Bar) (f2 : IndFrame) :
    ∃ f, calculate_indicators_with.calculate_indicators_rest cals df false f2
        = .ok f ∧ f.rsi_9 = f2.rsi_9 ∧ f.rsi_3 = f2.rsi_3 ∧
        f.rsi_14 = f2.rsi_14 := by
  simp only [calculate_indicators_with.calculate_indicators_rest]
  rcases safe_macd df.length (cals.macd (df.map Bar.close)) with t | sN
  · exact ⟨_, rfl, rfl, rfl, rfl⟩
  · by_cases hl : sN.length = 2
    · simp only [hl, if_true]
      exact ⟨_, rfl, rfl, rfl, rfl⟩
    · simp only [hl, if_false]
      exact ⟨_, rfl, rfl, rfl, rfl⟩

theorem rest_ok (cals : Calculators) (df : List Bar) (lo : Bool)
    (f2 : IndFrame) :
    ∃ f, calculate_indicators_with.calculate_indicators_rest cals df lo f2
        = .ok f := by
  simp only [calculate_indicators_with.calculate_indicators_rest]
  rcases safe_macd df.length (cals.macd (df.map Bar.close)) with t | sN
  · exact ⟨_, rfl⟩
  · by_cases hl : sN.length = 2
    · simp only [hl, if_true]
      exact ⟨_, rfl⟩
    · simp only [hl, if_false]
      exact ⟨_, rfl⟩

/-- C7 (amended): the decorator's error policy and its consequences in
`calculate_indicators`: a failed series-valued calculator (RSI, EMA, WMA,
ATR) yields an all-null series over the input's index, a failed Supertrend a
pair of all-null series, and `calculate_indicators` always completes with a
normal return for every calculator bundle and every failure; with a failed
RSI the rsi columns are present and fully null.  For the tuple-valued
Bollinger and MACD, however, the decorator returns a SINGLE null series
(not a null tuple), whose unpacking in `calculate_indicators` raises unless
the frame has exactly 3 (resp. 2) rows; that exception is caught by
`calculate_indicators`' own handler, which returns the frame as mutated so
far — with those columns absent, not null-filled. -/
theorem safe_indicator_error_policy :
    (∀ (n : ℕ) (e : String), safe_series n (.error e) = List.replicate n none)
    ∧ (∀ (n : ℕ) (e : String),
        safe_supertrend n (.error e) =
          (List.replicate n none, List.replicate n none))
    ∧ (∀ (n : ℕ) (e : String),
        safe_bollinger n (.error e) = .inr (List.replicate n none))
    ∧ (∀ (n : ℕ) (e : String),
        safe_macd n (.error e) = .inr (List.replicate n none))
    ∧ (∀ (cals : Calculators) (df : List Bar) (lo : Bool), df ≠ [] →
        ∃ f, calculate_indicators_with cals df lo = .ok f)
    ∧ (∀ (cals : Calculators) (df : List Bar) (e9 e3 e14 : String), df ≠ [] →
        cals.rsi (df.map Bar.close) 9 = .error e9 →
        cals.rsi (df.map Bar.close) 3 = .error e3 →
        cals.rsi (df.map Bar.close) 14 = .error e14 →
        ∃ f, calculate_indicators_with cals df false = .ok f ∧
          f.rsi_9 = some (List.replicate df.length none) ∧
          f.rsi_3 = some (List.replicate df.length none) ∧
          f.rsi_14 = some (List.replicate df.length none)) := by
  refine ⟨fun n e => rfl, fun n e => rfl, fun n e => rfl, fun n e => rfl,
    ?_, ?_⟩
  · intro cals df lo hne
    have hne2 : df.isEmpty = false := by
      cases df with
      | nil => exact absurd rfl hne
      | cons b tl => rfl
    simp only [calculate_indicators_with, hne2, Bool.false_eq_true,
      if_false]
    rcases safe_bollinger df.length (cals.bollinger (df.map Bar.close)) with
      t | sN
    · exact rest_ok cals df lo _
    · by_cases hl : sN.length = 3
      · simp only [hl, if_true]
        exact rest_ok cals df lo _
      · simp only [hl, if_false]
        exact ⟨_, rfl⟩
  · intro cals df e9 e3 e14 hne h9 h3 h14
    have hne2 : df.isEmpty = false := by
      cases df with
      | nil => exact absurd rfl hne
      | cons b tl => rfl
    simp only [calculate_indicators_with, hne2, Bool.false_eq_true,
      if_false, h9, h3, h14]
    rcases safe_bollinger df.length (cals.bollinger (df.map Bar.close)) with
      t | sN
    · obtain ⟨f, hf, h1, h2, h3'⟩ := rest_ok_rsi cals df _
      exact ⟨f, hf, by rw [h1]; rfl, by rw [h2]; rfl, by rw [h3']; rfl⟩
    · by_cases hl : sN.length = 3
      · simp only [hl, if_true]
        obtain ⟨f, hf, h1, h2, h3'⟩ := rest_ok_rsi cals df _
        exact ⟨f, hf, by rw [h1]; rfl, by rw [h2]; rfl, by rw [h3']; rfl⟩
      · simp only [hl, if_false]
        exact ⟨_, rfl, rfl, rfl, rfl⟩

/-- C7 witness: with a bundle whose RSI core always raises, on a two-row
frame `calculate_indicators` completes and the rsi columns are fully null. -/
theorem safe_indicator_error_policy_witness :
    safe_series 2 (.error "boom") = List.replicate 2 none ∧
    ∃ f, calculate_indicators_with
        { defaultCalculators with rsi := fun _ _ => .error "boom" }
        smallDf false = .ok f ∧
      f.rsi_9 = some (List.replicate smallDf.length none) ∧
      f.rsi_3 = some (List.replicate smallDf.length none) ∧
      f.rsi_14 = some (List.replicate smallDf.length none) :=
  ⟨safe_indicator_error_policy.1 2 "boom",
   safe_indicator_error_policy.2.2.2.2.2
     { defaultCalculators with rsi := fun _ _ => .error "boom" }
     smallDf "boom" "boom" "boom" (by decide) rfl rfl rfl⟩

/-- C7 counterexample: with a Bollinger core that raises, on a four-row
frame (4 ≠ 3 unpacking targets) the wrapped calculator returns a single
null series — not a null triple over the same index — and
`calculate_indicators` completes with the Bollinger columns (and every later
column: ATR, Supertrend, MACD, pct change) ABSENT rather than fully null,
while the earlier rsi columns are present. -/
theorem bollinger_failure_not_null_filled_cex :
    safe_bollinger 4 (failingBollingerCals.bollinger (cexDf.map Bar.close)) =
      .inr (List.replicate 4 none)
    ∧ ∃ f, calculate_indicators_with failingBollingerCals cexDf false = .ok f ∧
        f.bb_upper = none ∧ f.bb_middle = none ∧ f.bb_lower = none ∧
        f.atr_14 = none ∧ f.supertrend_col = none ∧ f.macd = none ∧
        f.pct_price_change = none ∧ f.rsi_9 ≠ none := by
  refine ⟨rfl, ⟨_, rfl, rfl, rfl, rfl, rfl, rfl, rfl, rfl, ?_⟩⟩
  simp

/-- C10 (amended): on every NON-empty frame with the OHLCV columns,
`calculate_indicators` returns normally; the price columns and the row set
are unchanged (the result's base frame IS the input) and only indicator
columns are added; with `latest_only = True` the result is exactly one row —
the last row of the computed frame. -/
theorem calculate_indicators_frame_effect (df : List Bar) (h : df ≠ []) :
    (∃ f, calculate_indicators df false = .ok f ∧ f.base = df)
    ∧ (∃ f g, calculate_indicators df false = .ok g ∧
        calculate_indicators df true = .ok f ∧
        f = lastRowFrame g ∧ f.base = lastOf df ∧ f.base.length = 1) := by
  cases df with
  | nil => exact absurd rfl h
  | cons b tl =>
    refine ⟨⟨_, rfl, rfl⟩, ⟨_, _, rfl, rfl, rfl, rfl, ?_⟩⟩
    show (lastOf (b :: tl)).length = 1
    have hx : (b :: tl).getLast?.isSome := by
      rw [List.getLast?_isSome]
      simp
    obtain ⟨x, hx2⟩ := Option.isSome_iff_exists.mp hx
    simp [lastOf, hx2]

/-- C10 counterexample: the empty frame has the OHLCV columns, yet
`calculate_indicators` raises (`validate_dataframe_columns` runs before the
`try` and raises "DataFrame is empty"), so with `latest_only=True` it does
not return a one-row frame. -/
theorem calculate_indicators_empty_cex :
    calculate_indicators [] true =
      .error "Calculate indicators: DataFrame is empty"
    ∧ ∀ f, calculate_indicators [] true ≠ .ok f := by
  refine ⟨rfl, fun f hf => ?_⟩
  simp [calculate_indicators, calculate_indicators_with] at hf

/-- C10 witness: the frame-effect theorem at a concrete two-row frame. -/
theorem calculate_indicators_frame_effect_witness :
    (∃ f, calculate_indicators smallDf false = .ok f ∧ f.base = smallDf)
    ∧ (∃ f g, calculate_indicators smallDf false = .ok g ∧
        calculate_indicators smallDf true = .ok f ∧
        f = lastRowFrame g ∧ f.base = lastOf smallDf ∧ f.base.length = 1) :=
  calculate_indicators_frame_effect smallDf (by decide)
